import Mathlib

/-!
# Verification development for the proofoflove repository

Shallow embedding of the core components of the `rohanphw/proofoflove`
repository:

* the circom circuits (`packages/circuits/circom/wealth_tier.circom`,
  `packages/circuits/circom/utils.circom`) together with the circomlib
  comparator templates they instantiate, modelled at the level of
  constraint-satisfaction over the BN254 scalar field (field elements are
  represented as natural numbers `< bn254p`, field operations carry an
  explicit `% bn254p`);
* the core TypeScript package (`packages/core/src/tiers.ts`,
  `packages/core/src/prover.ts`, the verifier, `packages/core/src/nullifier.ts`);
* the Solana submitter (`solana-submitter.ts`): byte encoding of Groth16
  proofs and the embedded tier-decoding table.

External cryptographic primitives (Poseidon, the Groth16 pairing check) are
modelled as parameters: theorems about code that merely plumbs them through
quantify over the primitive.
-/

namespace ProofOfLove

/-! ## Field constants

`bn254p` is the BN254 scalar field prime: the field circom 2.x circuits
operate over (every signal is an element of this field). -/

def bn254p : Nat :=
  21888242871839275222246405745257275088548364400416034343698204186575808495617

/-! ## circomlib comparators (`comparators.circom`, included by both circuits)

`Num2Bits(n)` constrains its input to equal a sum of `n` binary bits, so a
witness exists iff the input's field value is `< 2^n`.

`LessThan(k)` feeds `in[0] + 2^k - in[1]` (computed in the field) into
`Num2Bits(k+1)` and outputs `1 - bits[k]`.  We model it as an `Option Bool`:
`none` means no witness exists (the shifted value does not fit in `k+1`
bits, so witness generation fails), `some out` gives the output signal.

`GreaterEqThan(k)` is `LessThan(k)` with inputs `(in[1], in[0] + 1)`
(the `+ 1` again computed in the field). -/

def lessThanOut (k a b : Nat) : Option Bool :=
  let v := (a + 2 ^ k + bn254p - b) % bn254p
  if v < 2 ^ (k + 1) then some (decide (v < 2 ^ k)) else none

def greaterEqThanOut (k a b : Nat) : Option Bool :=
  lessThanOut k b ((a + 1) % bn254p)

/-! ## `Min3` (the old `utils.circom`, still the template instantiated by
`wealth_tier.circom`)

`min_01 <== lt_01.out * (in[0] - in[1]) + in[1]` over the field: a
2-to-1 mux selecting `in[0]` when the comparator fired.  `muxField s x y`
is that quadratic expression with selector signal `s ∈ {0,1}`. -/

def muxField (s x y : Nat) : Nat :=
  (s * ((x + bn254p - y) % bn254p) + y) % bn254p

def min3Out (a b c : Nat) : Option Nat := do
  let lt01 ← lessThanOut 64 a b
  let min01 := muxField (if lt01 then 1 else 0) a b
  let lt012 ← lessThanOut 64 min01 c
  pure (muxField (if lt012 then 1 else 0) min01 c)

/-! ## The `WealthTier` main circuit (`wealth_tier.circom`)

Witness generation succeeds iff every comparator admits a witness and the
final `and_gate.out === 1` constraint holds, i.e.
`gte_lower.out = 1` and `lt_upper.out = 1` for the **minimum** of the three
balances.  The `nullifier`/`timestamp` squaring constraints are always
satisfiable (they only bind the public signals) and impose no restriction,
so they do not appear in the acceptance condition. -/

def wealthTierAccepts (b1 b2 b3 lo hi : Nat) : Bool :=
  (do
    let minBalance ← min3Out b1 b2 b3
    let gteLower ← greaterEqThanOut 64 minBalance lo
    let ltUpper ← lessThanOut 64 minBalance hi
    pure (gteLower && ltUpper)).getD false

/-! ## The `Avg3` gadget (current `utils.circom`)

Signals: `sum <== in[0] + in[1] + in[2]`; prover-supplied witnesses
`avg` (`q`) and `remainder` (`r`); constraints
1. `sum === avg * 3 + remainder`;
2. `remainder * (remainder - 1) * (remainder - 2) === 0`
   (built through `r_minus_1`, `r_minus_2`, `prod_01`);
3. `LessThan(64)` on `(avg, 6148914691236517206)` with `out === 1`.

All signal arithmetic is in the field; subtraction `x - y` is
`(x + bn254p - y) % bn254p`. -/

def avgRangeBound : Nat := 6148914691236517206

def avg3ConstraintsHold (a b c q r : Nat) : Prop :=
  q < bn254p ∧ r < bn254p ∧
  (q * 3 % bn254p + r) % bn254p = (a + b + c) % bn254p ∧
  (r * ((r + bn254p - 1) % bn254p) % bn254p) * ((r + bn254p - 2) % bn254p) % bn254p = 0 ∧
  lessThanOut 64 q avgRangeBound = some true

/-! ## Tier table (`packages/core/src/tiers.ts`)

Balances are JavaScript numbers; we model them as integers (the claims
only concern integer inputs). -/

structure TierConfig where
  tier : Nat
  label : String
  emoji : String
  lowerBound : Int
  upperBound : Int
deriving DecidableEq, Repr

def MAX_BALANCE : Int := 10000000000000000

def tierSeed : TierConfig := ⟨1, "Seed", "🌱", 0, 100000⟩

def TIERS : List TierConfig :=
  [ tierSeed,
    ⟨2, "Sprout", "🌿", 100000, 1000000⟩,
    ⟨3, "Tree", "🌳", 1000000, 5000000⟩,
    ⟨4, "Mountain", "🏔️", 5000000, 25000000⟩,
    ⟨5, "Ocean", "🌊", 25000000, 100000000⟩,
    ⟨6, "Moon", "🌕", 100000000, 500000000⟩,
    ⟨7, "Sun", "☀️", 500000000, MAX_BALANCE⟩ ]

/-- `getTierForBalance`: first tier whose `[lowerBound, upperBound)` range
contains the balance; falls back to `TIERS[0]` when no tier matches. -/
def getTierForBalance (minBalanceCents : Int) : TierConfig :=
  (TIERS.find? fun t =>
    t.lowerBound ≤ minBalanceCents && minBalanceCents < t.upperBound).getD tierSeed

/-- `getTierByNumber`: `TIERS.find(t => t.tier === tierNumber)`. -/
def getTierByNumber (tierNumber : Nat) : Option TierConfig :=
  TIERS.find? fun t => t.tier == tierNumber

/-! ## Prover host side (`packages/core/src/prover.ts`)

`WealthProver.generateProof` computes, before invoking the proving backend:
`avgBalance = Math.floor((balances[0]+balances[1]+balances[2])/3)` and
`tier = getTierForBalance(avgBalance)`; the circuit input bounds are that
tier's `lowerBound`/`upperBound`. -/

def hostAvgBalance (b1 b2 b3 : Nat) : Nat := (b1 + b2 + b3) / 3

/-! ## Verifier (`packages/core/src/verifier.ts`, `WealthVerifier.verify`)

The snarkjs pairing check `groth16.verify(vkey, publicSignals, proof)` is
external; we parameterize the verify logic by its boolean result
(`pairingOk`).  Public signals are the `BigInt` values of the proof's
decimal signal strings.  A signal vector with fewer than four entries makes
the JS destructuring produce `undefined` and `BigInt(undefined)` throw,
which the surrounding `try` reports as a failed verification. -/

structure VerificationResult where
  valid : Bool
  tier : Option Nat
  tierLabel : Option String
  nullifier : Option String
  timestamp : Option Int
  error : Option String
deriving DecidableEq, Repr

def WealthVerifier.verify (pairingOk : Bool) (publicSignals : List Int)
    (declaredTier : Nat) (declaredLabel : String) : VerificationResult :=
  if !pairingOk then
    ⟨false, none, none, none, none, some "Invalid proof: verification failed"⟩
  else
    match publicSignals with
    | tierLower :: tierUpper :: nullifier :: timestamp :: _ =>
      match getTierByNumber declaredTier with
      | none =>
        ⟨false, none, none, none, none,
          some ("Unknown tier number: " ++ toString declaredTier)⟩
      | some claimedTier =>
        if claimedTier.lowerBound != tierLower || claimedTier.upperBound != tierUpper then
          ⟨false, none, none, none, none,
            some ("Tier bounds mismatch: proof has [" ++ toString tierLower ++ ", "
              ++ toString tierUpper ++ "), tier " ++ toString declaredTier
              ++ " expects [" ++ toString claimedTier.lowerBound ++ ", "
              ++ toString claimedTier.upperBound ++ ")")⟩
        else
          ⟨true, some declaredTier, some declaredLabel,
            some (toString nullifier), some timestamp, none⟩
    | _ => ⟨false, none, none, none, none, some "Verification failed"⟩

/-! ## Nullifier derivation (`packages/core/src/nullifier.ts`)

`generateNullifier` uses circomlib's Poseidon hash, an external
cryptographic primitive.  We parameterize by its one-argument and
two-argument applications: `H1 n` models `poseidon([n])` and `H2 a b`
models `poseidon([a, b])` (both composed with `F.toObject`).  Everything
else — the empty-input guard, lexicographic sorting, lowercasing,
truncation of the UTF-8 bytes to 31 bytes, the big-endian `BigInt`
conversion, and the left fold — is embedded from the source. -/

/-- Big-endian value of a byte list: the helper relation used to state how
`BigInt("0x" + bytes.toString("hex"))` reads a byte buffer. -/
def beVal (bytes : List Nat) : Nat :=
  bytes.foldl (fun acc b => acc * 256 + b) 0

/-- `BigInt("0x" + Buffer.from(s, "utf8").subarray(0, 31).toString("hex"))`:
the big-endian value of the first 31 UTF-8 bytes of `s`. -/
def utf8Field (s : String) : Nat :=
  beVal ((s.toUTF8.toList.take 31).map UInt8.toNat)

/-- Per-address key: the source lowercases the address before encoding
(`Buffer.from(addr.toLowerCase(), "utf8")`). -/
def encodeAddress (addr : String) : Nat :=
  utf8Field addr.toLower

/-- `generateNullifier` (`nullifier.ts` lines 94–133).  The sort models the
default JavaScript `Array.prototype.sort`, i.e. the unique lexicographically
sorted permutation of the address list. -/
def generateNullifier (H1 : Nat → Nat) (H2 : Nat → Nat → Nat)
    (walletAddresses : List String) (userSecret : String) : Except String Nat :=
  if walletAddresses.isEmpty then
    .error "At least one wallet address is required"
  else
    let sorted := List.insertionSort (· ≤ ·) walletAddresses
    let addressBigInts := sorted.map encodeAddress
    match addressBigInts with
    | [] => .error "At least one wallet address is required"
    | a0 :: rest =>
      let addressesHash := rest.foldl (fun acc a => H2 acc a) (H1 a0)
      .ok (H2 addressesHash (utf8Field userSecret))

/-! ## Solana submitter (`solana-submitter.ts`)

Byte buffers (`Uint8Array`) are modelled as `List Nat` with every entry
`< 256`; coordinates arrive as decimal strings and are read by `BigInt`,
so they are modelled as natural numbers. -/

/-- The alt_bn128 base-field modulus the submitter calls `CURVE_ORDER`. -/
def CURVE_ORDER : Nat :=
  21888242871839275222246405745257275088696311157297823662689037894645226208583

/-- One iteration of the `decimalTo32BytesBE` loop writes the current low
byte (`bn & 0xff`) at the highest remaining index and shifts (`bn >>= 8`);
`bytesBE n k` is the buffer the loop leaves behind for `k` indices. -/
def bytesBE : Nat → Nat → List Nat
  | _, 0 => []
  | bn, k + 1 => bytesBE (bn / 256) k ++ [bn % 256]

def decimalTo32BytesBE (n : Nat) : List Nat :=
  bytesBE n 32

/-- `negateY`: `CURVE_ORDER - y`, with `y = 0` mapped to `0`. -/
def negateY (y : Nat) : Nat :=
  if y = 0 then 0 else CURVE_ORDER - y

/-- `encodeProofA`: 64 bytes `[x(32) | neg_y(32)]`. -/
def encodeProofA (x y : Nat) : List Nat :=
  decimalTo32BytesBE x ++ decimalTo32BytesBE (negateY y)

/-- `encodeProofB`: 128 bytes `[x_c1 | x_c0 | y_c1 | y_c0]` — the
quadratic-extension pair order is swapped relative to the snarkjs
representation `pi_b = [[x_c0, x_c1], [y_c0, y_c1], _]`. -/
def encodeProofB (xc0 xc1 yc0 yc1 : Nat) : List Nat :=
  decimalTo32BytesBE xc1 ++ decimalTo32BytesBE xc0 ++
    decimalTo32BytesBE yc1 ++ decimalTo32BytesBE yc0

/-- `encodeProofC`: 64 bytes `[x(32) | y(32)]`, unmodified. -/
def encodeProofC (x y : Nat) : List Nat :=
  decimalTo32BytesBE x ++ decimalTo32BytesBE y

def encodePublicInputs (publicSignals : List Nat) : List (List Nat) :=
  publicSignals.map decimalTo32BytesBE

/-- The tier table embedded in `decodeTier` (`solana-submitter.ts`):
entries `(lo, hi, tier)` exactly as written in the source. -/
def decodeTierTable : List (Int × Int × Nat) :=
  [ (0, 100000, 1),
    (100000, 1000000, 2),
    (1000000, 5000000, 3),
    (5000000, 25000000, 4),
    (25000000, 100000000, 5),
    (100000000, 500000000, 6),
    (500000000, 10000000000000, 7) ]

/-- `decodeTier`: the first table entry whose bounds equal the inputs, else
`null`. -/
def decodeTier (tierLower tierUpper : Int) : Option Nat :=
  (decodeTierTable.find? fun e => tierLower == e.1 && tierUpper == e.2.1).map
    (fun e => e.2.2)

/-! ## Theorems -/

/-- **C1** — refuted by the code as shipped: `wealth_tier.circom`
instantiates `Min3`, not `Avg3`, so the compiled statement constrains the
*minimum* of the three balances, not their floor average.  On balances
`[10_000_000, 3_000_000, 12_000_000]` the floor average `8_333_333` lies in
`[5_000_000, 25_000_000)`, yet the circuit rejects the witness (the minimum
`3_000_000` is below the lower bound) — and it *accepts* the same balances
for tier 3 bounds `[1_000_000, 5_000_000)` even though the average is not
in that range.  This contradicts the circuit's own test suite
(`WealthTier Circuit (AVG)`), the prover, and the current `utils.circom`,
which defines only `Avg3`. -/
theorem wealthTier_rejects_avg_in_range_input :
    wealthTierAccepts 10000000 3000000 12000000 5000000 25000000 = false ∧
    5000000 ≤ hostAvgBalance 10000000 3000000 12000000 ∧
    hostAvgBalance 10000000 3000000 12000000 < 25000000 ∧
    wealthTierAccepts 10000000 3000000 12000000 1000000 5000000 = true ∧
    ¬ (1000000 ≤ hostAvgBalance 10000000 3000000 12000000 ∧
       hostAvgBalance 10000000 3000000 12000000 < 5000000) := by
  decide

/-- **C2** — the host side behaves as claimed (average `8_333_333`, Tier 4
with bounds `[5_000_000, 25_000_000)` selected), but end-to-end generation
cannot succeed: the shipped circuit constrains the minimum balance
(`3_000_000`), which violates the tier 4 lower bound, so witness generation
fails on exactly the scenario the repository's own test asserts passes. -/
theorem prover_dip_scenario_fails_on_circuit :
    hostAvgBalance 10000000 3000000 12000000 = 8333333 ∧
    getTierForBalance 8333333 = ⟨4, "Mountain", "🏔️", 5000000, 25000000⟩ ∧
    wealthTierAccepts 10000000 3000000 12000000 5000000 25000000 = false := by
  decide

/-- **C3** — refuted at tier 7: `decodeTier`'s embedded table agrees with
the core `TIERS` on tiers 1–6, but its tier 7 upper bound is
`10_000_000_000_000` (`10^13`) while the core table's sentinel is
`10_000_000_000_000_000` (`10^16`).  `decodeTier` returns `null` on the
core tier 7 bounds and returns `7` only for the `10^13` bound. -/
theorem decodeTier_tier7_diverges_from_TIERS :
    (∀ t ∈ TIERS, t.tier ≠ 7 → decodeTier t.lowerBound t.upperBound = some t.tier) ∧
    (getTierByNumber 7).map TierConfig.upperBound = some 10000000000000000 ∧
    decodeTier 500000000 10000000000000000 = none ∧
    decodeTier 500000000 10000000000000 = some 7 := by
  decide

/-- **C8** — `generateNullifier` on an empty wallet-address array fails at
the input boundary with the source's error message; the result does not
depend on the hash primitive (the theorem holds for *every* `H1`, `H2`), so
no hashing work can have contributed to it. -/
theorem generateNullifier_empty_rejected (H1 : Nat → Nat) (H2 : Nat → Nat → Nat)
    (userSecret : String) :
    generateNullifier H1 H2 [] userSecret
      = .error "At least one wallet address is required" := rfl

/-- **C9** — for every integer balance outside `[0, 10^16)` (negative, or
at or above the tier-7 sentinel `MAX_BALANCE`), `getTierForBalance` totals
out to the Tier 1 (`Seed`) definition via its fallback branch. -/
theorem getTierForBalance_out_of_range_fallback (b : Int)
    (h : b < 0 ∨ MAX_BALANCE ≤ b) :
    getTierForBalance b = tierSeed := by
  have hfind : TIERS.find?
      (fun t => t.lowerBound ≤ b && b < t.upperBound) = none := by
    rw [List.find?_eq_none]
    intro t ht
    rcases h with h | h <;> fin_cases ht <;>
      simp_all [MAX_BALANCE, tierSeed] <;> omega
  simp [getTierForBalance, hfind]

/-- Witness for C9: concrete out-of-range inputs on both sides. -/
theorem getTierForBalance_out_of_range_fallback_witness :
    getTierForBalance (-5) = tierSeed ∧
    getTierForBalance 10000000000000000 = tierSeed :=
  ⟨getTierForBalance_out_of_range_fallback (-5) (Or.inl (by decide)),
   getTierForBalance_out_of_range_fallback 10000000000000000 (Or.inr (by decide))⟩

/-- `bytesBE n k` is `k` bytes long, each entry is a byte, and its
big-endian value is `n` reduced modulo `256^k`. -/
theorem bytesBE_spec (k : Nat) : ∀ n : Nat,
    (bytesBE n k).length = k ∧ (∀ x ∈ bytesBE n k, x < 256) ∧
    beVal (bytesBE n k) = n % 256 ^ k := by
  induction k with
  | zero => intro n; simp [bytesBE, beVal, Nat.mod_one]
  | succ k ih =>
    intro n
    obtain ⟨hlen, hmem, hval⟩ := ih (n / 256)
    refine ⟨by simp [bytesBE, hlen], ?_, ?_⟩
    · intro x hx
      rcases (by simpa [bytesBE] using hx :
          x ∈ bytesBE (n / 256) k ∨ x = n % 256) with hx | hx
      · exact hmem x hx
      · omega
    · have happ : beVal (bytesBE (n / 256) k ++ [n % 256])
          = beVal (bytesBE (n / 256) k) * 256 + n % 256 := by
        simp [beVal, List.foldl_append]
      calc beVal (bytesBE n (k + 1))
          = (n / 256 % 256 ^ k) * 256 + n % 256 := by
            rw [show bytesBE n (k + 1) = bytesBE (n / 256) k ++ [n % 256] from rfl,
              happ, hval]
        _ = n % 256 ^ (k + 1) := by
            rw [pow_succ, mul_comm (256 ^ k) 256, Nat.mod_mul]
            ring

/-- **C10** — `decimalTo32BytesBE` always returns exactly 32 bytes whose
big-endian value is the input reduced modulo `2^256`: oversize inputs are
silently truncated, never rejected. -/
theorem decimalTo32BytesBE_reduces_mod (n : Nat) :
    (decimalTo32BytesBE n).length = 32 ∧
    (∀ x ∈ decimalTo32BytesBE n, x < 256) ∧
    beVal (decimalTo32BytesBE n) = n % 2 ^ 256 := by
  obtain ⟨h1, h2, h3⟩ := bytesBE_spec 32 n
  exact ⟨h1, h2, by rw [decimalTo32BytesBE, h3]; norm_num⟩

/-- **C6** — `generateNullifier` is deterministic (it is a function) and
order-independent: because the address list is sorted before hashing, any
permutation of the list — for *every* hash primitive `H1`, `H2` and every
secret — produces the same result. -/
theorem generateNullifier_perm_invariant (H1 : Nat → Nat) (H2 : Nat → Nat → Nat)
    (l l' : List String) (s : String) (hp : l.Perm l') :
    generateNullifier H1 H2 l s = generateNullifier H1 H2 l' s := by
  have hsort : List.insertionSort (· ≤ ·) l = List.insertionSort (· ≤ ·) l' :=
    List.eq_of_perm_of_sorted
      (((List.perm_insertionSort _ l).trans hp).trans
        (List.perm_insertionSort _ l').symm)
      (List.sorted_insertionSort _ l) (List.sorted_insertionSort _ l')
  have hlen := hp.length_eq
  have hempty : l.isEmpty = l'.isEmpty := by
    cases l <;> cases l' <;> simp_all
  unfold generateNullifier
  rw [hempty, hsort]

/-- Witness for C6: a concrete two-address permutation with a concrete
hash primitive. -/
theorem generateNullifier_perm_invariant_witness :
    generateNullifier (fun n => n + 1) (fun a b => 31 * a + b) ["b", "a"] "s"
      = generateNullifier (fun n => n + 1) (fun a b => 31 * a + b) ["a", "b"] "s" :=
  generateNullifier_perm_invariant _ _ _ _ _ (by decide)

/-- **C5** — on a proof whose pairing check succeeds,
`WealthVerifier.verify` performs the mandatory second check: it is valid
exactly when the declared tier exists in the tier table and that tier's
bounds equal the first two public signals; an unknown tier or a bounds
mismatch yields `valid = false` with the corresponding error (the mismatch
error reporting expected vs. actual bounds); validity returns the recovered
nullifier and timestamp; and a proof carrying tier 3's bounds is rejected
whenever the caller declares tier 5. -/
theorem verify_mandatory_bound_check (s0 s1 s2 s3 : Int) (rest : List Int)
    (d : Nat) (lbl : String) :
    ((WealthVerifier.verify true (s0 :: s1 :: s2 :: s3 :: rest) d lbl).valid = true
      ↔ ∃ t, getTierByNumber d = some t ∧ t.lowerBound = s0 ∧ t.upperBound = s1) ∧
    (getTierByNumber d = none →
      WealthVerifier.verify true (s0 :: s1 :: s2 :: s3 :: rest) d lbl
        = ⟨false, none, none, none, none,
            some ("Unknown tier number: " ++ toString d)⟩) ∧
    (∀ t, getTierByNumber d = some t → t.lowerBound ≠ s0 ∨ t.upperBound ≠ s1 →
      WealthVerifier.verify true (s0 :: s1 :: s2 :: s3 :: rest) d lbl
        = ⟨false, none, none, none, none,
            some ("Tier bounds mismatch: proof has [" ++ toString s0 ++ ", "
              ++ toString s1 ++ "), tier " ++ toString d
              ++ " expects [" ++ toString t.lowerBound ++ ", "
              ++ toString t.upperBound ++ ")")⟩) ∧
    ((WealthVerifier.verify true (s0 :: s1 :: s2 :: s3 :: rest) d lbl).valid = true →
      (WealthVerifier.verify true (s0 :: s1 :: s2 :: s3 :: rest) d lbl).nullifier
          = some (toString s2) ∧
        (WealthVerifier.verify true (s0 :: s1 :: s2 :: s3 :: rest) d lbl).timestamp
          = some s3) ∧
    (WealthVerifier.verify true (1000000 :: 5000000 :: s2 :: s3 :: rest) 5 lbl).valid
      = false := by
  refine ⟨?_, ?_, ?_, ?_, ?_⟩
  · cases hgt : getTierByNumber d with
    | none => simp [WealthVerifier.verify, hgt]
    | some t =>
      by_cases hb : t.lowerBound = s0 ∧ t.upperBound = s1
      · simp [WealthVerifier.verify, hgt, hb.1, hb.2]
      · rw [not_and_or] at hb
        constructor
        · intro hv
          exfalso
          rcases hb with hb | hb <;>
            simp [WealthVerifier.verify, hgt, bne_iff_ne, hb] at hv
        · rintro ⟨t', ht', h0, h1⟩
          cases ht'
          rcases hb with hb | hb <;> exact absurd (by omega) hb
  · intro hgt
    simp [WealthVerifier.verify, hgt]
  · intro t hgt hb
    have hcond : (t.lowerBound != s0 || t.upperBound != s1) = true := by
      rcases hb with hb | hb <;> simp [bne_iff_ne, hb]
    simp [WealthVerifier.verify, hgt, hcond]
  · intro hv
    cases hgt : getTierByNumber d with
    | none => simp [WealthVerifier.verify, hgt] at hv
    | some t =>
      by_cases hb : (t.lowerBound != s0 || t.upperBound != s1) = true
      · simp [WealthVerifier.verify, hgt, hb] at hv
      · simp [WealthVerifier.verify, hgt, hb]
  · have hgt : getTierByNumber 5
        = some ⟨5, "Ocean", "🌊", 25000000, 100000000⟩ := by decide
    simp [WealthVerifier.verify, hgt]

/-- Witness for C5: tier 3 bounds accepted when tier 3 is declared,
rejected when tier 5 is declared. -/
theorem verify_mandatory_bound_check_witness :
    (WealthVerifier.verify true [1000000, 5000000, 7, 8] 3 "Tree").valid = true ∧
    (WealthVerifier.verify true [1000000, 5000000, 7, 8] 5 "Ocean").valid = false :=
  ⟨(verify_mandatory_bound_check 1000000 5000000 7 8 [] 3 "Tree").1.mpr
      ⟨⟨3, "Tree", "🌳", 1000000, 5000000⟩, by decide, by decide, by decide⟩,
    (verify_mandatory_bound_check 1000000 5000000 7 8 [] 5 "Ocean").2.2.2.2⟩

/-! Helpers for slicing the 32-byte blocks the encoder concatenates. -/

theorem length_decimalTo32BytesBE (n : Nat) : (decimalTo32BytesBE n).length = 32 :=
  (bytesBE_spec 32 n).1

theorem beVal_decimalTo32BytesBE (v : Nat) (h : v < 2 ^ 256) :
    beVal (decimalTo32BytesBE v) = v := by
  have h32 := (bytesBE_spec 32 v).2.2
  rw [decimalTo32BytesBE, h32, show (256 : Nat) ^ 32 = 2 ^ 256 by norm_num,
    Nat.mod_eq_of_lt h]

theorem take32_append (xs ys : List Nat) (h : xs.length = 32) :
    (xs ++ ys).take 32 = xs := by
  rw [← h, List.take_left]

theorem drop32_append (xs ys : List Nat) (h : xs.length = 32) :
    (xs ++ ys).drop 32 = ys := by
  rw [← h, List.drop_left]

/-- **C7** — the encoders produce the exact on-chain byte layout: `A` is
`x` followed by the negated `y` (`CURVE_ORDER - y`, with `y = 0` encoded as
`0`); `C` is `x` then `y` unmodified; `B` swaps the quadratic-extension
pair order to `x.c1, x.c0, y.c1, y.c0` over 128 bytes; and the four public
signals become exactly-32-byte big-endian blocks in order.  The encoders
are pure total functions of the numeric inputs. -/
theorem encoder_onchain_layout (x y xc0 xc1 yc0 yc1 cx cy p0 p1 p2 p3 : Nat)
    (hx : x < CURVE_ORDER) (hy : y < CURVE_ORDER)
    (hxc0 : xc0 < CURVE_ORDER) (hxc1 : xc1 < CURVE_ORDER)
    (hyc0 : yc0 < CURVE_ORDER) (hyc1 : yc1 < CURVE_ORDER)
    (hcx : cx < CURVE_ORDER) (hcy : cy < CURVE_ORDER)
    (hp0 : p0 < 2 ^ 256) (hp1 : p1 < 2 ^ 256) (hp2 : p2 < 2 ^ 256)
    (hp3 : p3 < 2 ^ 256) :
    (encodeProofA x y).length = 64 ∧
    beVal ((encodeProofA x y).take 32) = x ∧
    beVal ((encodeProofA x y).drop 32) = (if y = 0 then 0 else CURVE_ORDER - y) ∧
    (encodeProofB xc0 xc1 yc0 yc1).length = 128 ∧
    beVal ((encodeProofB xc0 xc1 yc0 yc1).take 32) = xc1 ∧
    beVal (((encodeProofB xc0 xc1 yc0 yc1).drop 32).take 32) = xc0 ∧
    beVal (((encodeProofB xc0 xc1 yc0 yc1).drop 64).take 32) = yc1 ∧
    beVal ((encodeProofB xc0 xc1 yc0 yc1).drop 96) = yc0 ∧
    (encodeProofC cx cy).length = 64 ∧
    beVal ((encodeProofC cx cy).take 32) = cx ∧
    beVal ((encodeProofC cx cy).drop 32) = cy ∧
    (encodePublicInputs [p0, p1, p2, p3]).map beVal = [p0, p1, p2, p3] ∧
    ∀ blk ∈ encodePublicInputs [p0, p1, p2, p3], blk.length = 32 := by
  have hc : CURVE_ORDER < 2 ^ 256 := by decide
  have hny : negateY y < 2 ^ 256 := by
    unfold negateY
    split <;> omega
  have hassoc : encodeProofB xc0 xc1 yc0 yc1
      = decimalTo32BytesBE xc1 ++ (decimalTo32BytesBE xc0
          ++ (decimalTo32BytesBE yc1 ++ decimalTo32BytesBE yc0)) := by
    simp [encodeProofB, List.append_assoc]
  have hB32 : (encodeProofB xc0 xc1 yc0 yc1).drop 32
      = decimalTo32BytesBE xc0 ++ (decimalTo32BytesBE yc1 ++ decimalTo32BytesBE yc0) := by
    rw [hassoc, drop32_append _ _ (length_decimalTo32BytesBE _)]
  have hB64 : (encodeProofB xc0 xc1 yc0 yc1).drop 64
      = decimalTo32BytesBE yc1 ++ decimalTo32BytesBE yc0 := by
    rw [show (64 : Nat) = 32 + 32 from rfl, ← List.drop_drop, hB32,
      drop32_append _ _ (length_decimalTo32BytesBE _)]
  have hB96 : (encodeProofB xc0 xc1 yc0 yc1).drop 96
      = decimalTo32BytesBE yc0 := by
    rw [show (96 : Nat) = 64 + 32 from rfl, ← List.drop_drop, hB64,
      drop32_append _ _ (length_decimalTo32BytesBE _)]
  refine ⟨?_, ?_, ?_, ?_, ?_, ?_, ?_, ?_, ?_, ?_, ?_, ?_, ?_⟩
  · simp [encodeProofA, length_decimalTo32BytesBE]
  · rw [encodeProofA, take32_append _ _ (length_decimalTo32BytesBE _),
      beVal_decimalTo32BytesBE _ (by omega)]
  · rw [encodeProofA, drop32_append _ _ (length_decimalTo32BytesBE _),
      beVal_decimalTo32BytesBE _ hny, negateY]
  · simp [encodeProofB, length_decimalTo32BytesBE]
  · rw [hassoc, take32_append _ _ (length_decimalTo32BytesBE _),
      beVal_decimalTo32BytesBE _ (by omega)]
  · rw [hB32, take32_append _ _ (length_decimalTo32BytesBE _),
      beVal_decimalTo32BytesBE _ (by omega)]
  · rw [hB64, take32_append _ _ (length_decimalTo32BytesBE _),
      beVal_decimalTo32BytesBE _ (by omega)]
  · rw [hB96, beVal_decimalTo32BytesBE _ (by omega)]
  · simp [encodeProofC, length_decimalTo32BytesBE]
  · rw [encodeProofC, take32_append _ _ (length_decimalTo32BytesBE _),
      beVal_decimalTo32BytesBE _ (by omega)]
  · rw [encodeProofC, drop32_append _ _ (length_decimalTo32BytesBE _),
      beVal_decimalTo32BytesBE _ (by omega)]
  · simp only [encodePublicInputs, List.map_cons, List.map_nil]
    rw [beVal_decimalTo32BytesBE _ hp0, beVal_decimalTo32BytesBE _ hp1,
      beVal_decimalTo32BytesBE _ hp2, beVal_decimalTo32BytesBE _ hp3]
  · intro blk hblk
    rcases (by simpa [encodePublicInputs] using hblk :
        blk = decimalTo32BytesBE p0 ∨ blk = decimalTo32BytesBE p1 ∨
          blk = decimalTo32BytesBE p2 ∨ blk = decimalTo32BytesBE p3) with
      h | h | h | h <;> rw [h, length_decimalTo32BytesBE]

/-- Witness for C7: concrete coordinates, including the `y`-negation. -/
theorem encoder_onchain_layout_witness :
    (encodeProofA 1 2).length = 64 ∧
    beVal ((encodeProofA 1 2).drop 32) = CURVE_ORDER - 2 ∧
    beVal (((encodeProofB 3 4 5 6).drop 32).take 32) = 3 := by
  have h := encoder_onchain_layout 1 2 3 4 5 6 7 8 9 10 11 12
    (by decide) (by decide) (by decide) (by decide) (by decide) (by decide)
    (by decide) (by decide) (by decide) (by decide) (by decide) (by decide)
  refine ⟨h.1, ?_, h.2.2.2.2.2.1⟩
  have h2 := h.2.2.1
  norm_num at h2
  exact h2

/-- **C4** — soundness and uniqueness of the `Avg3` gadget: for inputs
representing non-negative integers at most `2^62`, the honest witness
`(q, r) = (floor(sum/3), sum mod 3)` satisfies all constraints (so the
gadget outputs exactly the floor average), and it is the only witness pair
with `r ∈ {0, 1, 2}` and `q` passing the range check that satisfies them —
including the wrap-around window `q ≥ p - (2^64 - bound)` that the
`LessThan(64)` range check also admits. -/
theorem avg3_floor_average_unique (a b c : Nat)
    (ha : a ≤ 2 ^ 62) (hb : b ≤ 2 ^ 62) (hc : c ≤ 2 ^ 62) :
    avg3ConstraintsHold a b c ((a + b + c) / 3) ((a + b + c) % 3) ∧
    ∀ q r, r < 3 → avg3ConstraintsHold a b c q r →
      q = (a + b + c) / 3 ∧ r = (a + b + c) % 3 := by
  norm_num at ha hb hc
  constructor
  · refine ⟨?_, ?_, ?_, ?_, ?_⟩
    · unfold bn254p; omega
    · unfold bn254p; omega
    · unfold bn254p; omega
    · have h3 : (a + b + c) % 3 = 0 ∨ (a + b + c) % 3 = 1 ∨ (a + b + c) % 3 = 2 := by
        omega
      rcases h3 with h | h | h <;> rw [h] <;> decide
    · unfold lessThanOut avgRangeBound bn254p
      have hv : ((a + b + c) / 3 + 2 ^ 64 +
          21888242871839275222246405745257275088548364400416034343698204186575808495617 -
          6148914691236517206) %
          21888242871839275222246405745257275088548364400416034343698204186575808495617
          = (a + b + c) / 3 + 12297829382473034410 := by
        norm_num
        omega
      rw [hv, if_pos (by norm_num; omega)]
      simp only [Option.some.injEq, decide_eq_true_eq]
      omega
  · rintro q r hr ⟨hqp, hrp, hsum, hcubic, hlt⟩
    unfold lessThanOut avgRangeBound bn254p at hlt
    norm_num at hlt
    unfold bn254p at hqp hsum
    obtain ⟨h65, h64⟩ := hlt
    have hrange : q < 6148914691236517206 ∨
        21888242871839275222246405745257275088548364400416034343685906357193335461207 ≤ q := by
      omega
    have h3 : (a + b + c) %
        21888242871839275222246405745257275088548364400416034343698204186575808495617
        = a + b + c := Nat.mod_eq_of_lt (by omega)
    rcases hrange with hq | hq
    · have h1 : q * 3 %
          21888242871839275222246405745257275088548364400416034343698204186575808495617
          = q * 3 := Nat.mod_eq_of_lt (by omega)
      rw [h1] at hsum
      have h2 : (q * 3 + r) %
          21888242871839275222246405745257275088548364400416034343698204186575808495617
          = q * 3 + r := Nat.mod_eq_of_lt (by omega)
      rw [h2, h3] at hsum
      omega
    · exfalso
      have h1 : q * 3 %
          21888242871839275222246405745257275088548364400416034343698204186575808495617
          = q * 3 - 2 * 21888242871839275222246405745257275088548364400416034343698204186575808495617 := by
        omega
      rw [h1, h3] at hsum
      have h2 : (q * 3 - 2 * 21888242871839275222246405745257275088548364400416034343698204186575808495617 + r) %
          21888242871839275222246405745257275088548364400416034343698204186575808495617
          = q * 3 - 2 * 21888242871839275222246405745257275088548364400416034343698204186575808495617 + r :=
        Nat.mod_eq_of_lt (by omega)
      rw [h2] at hsum
      omega

/-- Witness for C4 at the concrete balance triple `(5, 5, 5)`. -/
theorem avg3_floor_average_unique_witness :
    avg3ConstraintsHold 5 5 5 5 0 ∧ 5 = (5 + 5 + 5) / 3 ∧ 0 = (5 + 5 + 5) % 3 := by
  have h := avg3_floor_average_unique 5 5 5 (by norm_num) (by norm_num) (by norm_num)
  exact ⟨h.1, h.2 5 0 (by norm_num) h.1⟩

end ProofOfLove
